import Mathlib

/-!
Verification of the adversarial communication strategy simulator (`src/app.js`).

The numeric carrier is `ℚ` (JS numbers, modelled exactly; the transcendental
library functions `Math.log10`, `Math.log2` and `Math.pow(10, ·)` are supplied
as an explicit environment `JsMath`, since the simulator only composes them
algebraically). Bins and indices are `ℕ`/`ℤ`.
-/

namespace CommSim

/-- `BINS` from `src/app.js` line 4: frequency bins over the channel. -/
def BINS : ℕ := 48

/-- `TX_FREQ_SLOTS` from `src/app.js` line 5. -/
def TX_FREQ_SLOTS : ℕ := 12

/-- Modulation schemes, `MODS` from `src/app.js` line 6. -/
inductive Modulation where
  | BPSK
  | QPSK
  | QAM16
deriving DecidableEq, Repr

/-- `MODS` as the ordered list used by the action-space builder (named
`mods` because `[MOD` is a reserved token in Lean). -/
def mods : List Modulation := [.BPSK, .QPSK, .QAM16]

/-- `MOD_EFF` from `src/app.js` line 7 (named `modEff` because `[MOD` is a
reserved token in Lean). -/
def modEff : Modulation → ℚ
  | .BPSK => 1
  | .QPSK => 2
  | .QAM16 => 4

/-- `TX_POWER_LEVELS` from `src/app.js` line 8. -/
def TX_POWER_LEVELS : List ℚ := [45/100, 72/100, 1]

/-- `JAM_POWER_LEVELS` from `src/app.js` line 9. -/
def JAM_POWER_LEVELS : List ℚ := [35/100, 65/100, 1]

/-- `JAM_SPANS` from `src/app.js` line 10. -/
def JAM_SPANS : List ℕ := [2, 4, 8, 12]

/-- `HISTORY_POINTS` from `src/app.js` line 11. -/
def HISTORY_POINTS : ℕ := 180

/-- A transmitter action `{fSlot, mod, p}` (`src/app.js` line 58). -/
structure TxAction where
  fSlot : ℕ
  mod : Modulation
  p : ℚ
deriving DecidableEq, Repr

/-- A jammer action `{fSlot, span, p}` (`src/app.js` line 70). -/
structure JamAction where
  fSlot : ℕ
  span : ℕ
  p : ℚ
deriving DecidableEq, Repr

/-- `buildActionSpace` from `src/app.js` lines 53-63: slot outer,
modulation middle, power inner. -/
def buildActionSpace : List TxAction :=
  (List.range TX_FREQ_SLOTS).flatMap fun f =>
    mods.flatMap fun mod =>
      TX_POWER_LEVELS.map fun p => ⟨f, mod, p⟩

/-- `buildJamActions` from `src/app.js` lines 65-75. -/
def buildJamActions : List JamAction :=
  (List.range TX_FREQ_SLOTS).flatMap fun f =>
    JAM_SPANS.flatMap fun span =>
      JAM_POWER_LEVELS.map fun p => ⟨f, span, p⟩

/-- `TX_ACTIONS` from `src/app.js` line 77. -/
def TX_ACTIONS : List TxAction := buildActionSpace

/-- `JAM_ACTIONS` from `src/app.js` line 78. -/
def JAM_ACTIONS : List JamAction := buildJamActions

/-- `argMax` from `src/app.js` lines 85-89: `best = 0`, then for
`i = 1 .. arr.length - 1`, `if (arr[i] > arr[best]) best = i`. -/
def argMax (arr : List ℚ) : ℕ :=
  (List.range' 1 (arr.length - 1)).foldl
    (fun best i => if arr.getD i 0 > arr.getD best 0 then i else best) 0

/-- `pickAction` from `src/app.js` lines 91-94: with the first random draw
below `eps`, explore via `Math.floor(Math.random() * q.length)` (second
draw), else exploit `argMax`. -/
def pickAction (q : List ℚ) (eps r1 r2 : ℚ) : ℕ :=
  if r1 < eps then (⌊r2 * (q.length : ℚ)⌋).toNat else argMax q

/-- `mapFreqSlotToBin` from `src/app.js` lines 129-133
(`Math.floor` on non-negative ints is `ℕ` division). -/
def mapFreqSlotToBin (slot : ℕ) : ℕ :=
  let binsPerSlot := BINS / TX_FREQ_SLOTS
  let base := slot * binsPerSlot
  min (BINS - 1) (base + binsPerSlot / 2)

/-- `computeOverlap` from `src/app.js` lines 135-142.  `stop` stands for the
source's `end` (a Lean keyword); the span may be fractional at the call site
(`Math.min(jamAct.span, cfg.jamMaxSpan)`), so it is a `ℚ` floored as in
`Math.floor(spanBins / 2)`. -/
def computeOverlap (txBin jamCenter spanBins : ℚ) : ℚ :=
  let half : ℤ := ⌊spanBins / 2⌋
  let start : ℚ := max 0 (jamCenter - half)
  let stop : ℚ := min ((BINS : ℚ) - 1) (jamCenter + half)
  if txBin < start ∨ txBin > stop then 0
  else max 0 (1 - (|txBin - jamCenter| + 1) / ((half : ℚ) + 1))

/-- Modelled from the spec (§4.2): `resolveFrequency` returns the midpoint
bin of the slot's segment under floor division of the bin count by the slot
count, clamped to the maximum bin index. -/
def midpointBinSpec (slot : ℕ) : ℕ :=
  min (BINS - 1) (slot * (BINS / TX_FREQ_SLOTS) + (BINS / TX_FREQ_SLOTS) / 2)

/-- The transcendental JS library functions the simulator composes
algebraically: `Math.log10`, `Math.log2`, and `x ↦ Math.pow(10, x)`. -/
structure JsMath where
  log10 : ℚ → ℚ
  log2 : ℚ → ℚ
  pow10 : ℚ → ℚ

/-- `linToDb` from `src/app.js` lines 96-98. -/
def linToDb (env : JsMath) (x : ℚ) : ℚ := 10 * env.log10 x

/-- `dbToLin` from `src/app.js` lines 99-101: `Math.pow(10, db / 10)`. -/
def dbToLin (env : JsMath) (db : ℚ) : ℚ := env.pow10 (db / 10)

/-- `state.tx.lastAction` after a tick: `{ ...txAct, txBin }`
(`src/app.js` line 186). -/
structure TxResolved where
  act : TxAction
  txBin : ℕ
deriving DecidableEq, Repr

/-- `state.jam.lastAction` after a tick: `{ ...jamAct, jamCenter, spanBins }`
(`src/app.js` line 187). -/
structure JamResolved where
  act : JamAction
  jamCenter : ℕ
  spanBins : ℚ
deriving DecidableEq, Repr

/-- One record of `state.history` (`src/app.js` lines 189-197). -/
structure HistEntry where
  t : ℕ
  throughputMbps : ℚ
  jammingIntensity : ℚ
  sinrDb : ℚ
  overlapFactor : ℚ
  tx : TxResolved
  jam : JamResolved
deriving DecidableEq, Repr

/-- One agent's mutable record (`state.tx` / `state.jam`, `src/app.js`
lines 19-20): value table `q`, exploration rate `eps`, learning rate `lr`,
and the last resolved action. -/
structure AgentState (A : Type) where
  q : List ℚ
  eps : ℚ
  lr : ℚ
  lastAction : Option A
deriving DecidableEq

/-- The engine-relevant fields of the mutable global `state`
(`src/app.js` lines 14-24; `paused`/DOM/chart fields are presentation). -/
structure SimState where
  t : ℕ
  freezeLearning : Bool
  jamAdaptive : Bool
  tx : AgentState TxResolved
  jam : AgentState JamResolved
  history : List HistEntry
deriving DecidableEq

/-- The initial `state` literal (`src/app.js` lines 14-24): empty value
tables, `tx.eps = 0.08`, `tx.lr = 0.18`, `jam.eps = 0.12`, `jam.lr = 0.14`. -/
def initState : SimState :=
  { t := 0
    freezeLearning := false
    jamAdaptive := true
    tx := ⟨[], 8/100, 18/100, none⟩
    jam := ⟨[], 12/100, 14/100, none⟩
    history := [] }

/-- `initQ` from `src/app.js` lines 80-83: a zero table of the given size. -/
def initQ (size : ℕ) : List ℚ := List.replicate size 0

/-- `resetSimulation` from `src/app.js` lines 103-112 (engine part): zero the
tick counter, reinitialize both value tables, clear the history. -/
def resetSimulation (s : SimState) : SimState :=
  { s with
    t := 0
    tx := { s.tx with q := initQ TX_ACTIONS.length }
    jam := { s.jam with q := initQ JAM_ACTIONS.length }
    history := [] }

/-- The per-tick configuration `readSettings()` returns
(`src/app.js` lines 114-127). -/
structure Config where
  snrDb : ℚ
  bwMHz : ℚ
  noiseDensity : ℚ
  jamMaxPower : ℚ
  jamMaxSpan : ℚ
  txMaxPower : ℚ
  lr : ℚ
  eps : ℚ
  freeze : Bool
  jamAdaptive : Bool
deriving DecidableEq

/-- The `Math.random()` draws one tick may consume: up to two per
`pickAction` call (threshold test, then exploration index). The
non-adaptive jammer branch consumes a single draw, modelled by `jamR2`. -/
structure Draws where
  txR1 : ℚ
  txR2 : ℚ
  jamR1 : ℚ
  jamR2 : ℚ
deriving DecidableEq

/-- All intermediate values of one `stepSimulation` call
(`src/app.js` lines 144-177). -/
structure TickData where
  txIdx : ℕ
  jamIdx : ℕ
  txAct : TxAction
  jamAct : JamAction
  txBin : ℕ
  jamCenter : ℕ
  jamSpanBins : ℚ
  noisePower : ℚ
  txPower : ℚ
  jamPower : ℚ
  overlapFactor : ℚ
  interference : ℚ
  signal : ℚ
  sinr : ℚ
  spectralEff : ℚ
  throughputMbps : ℚ
  jammingIntensity : ℚ
  txReward : ℚ
  jamReward : ℚ
deriving DecidableEq

/-- The computation part of `stepSimulation` (`src/app.js` lines 144-177).
Before the selections the code copies `cfg.lr`/`cfg.eps` into `state.tx`
(lines 146-147), so the transmitter explores with `cfg.eps`; `state.jam.eps`
is never reassigned, so the jammer explores with the rate stored in the
state. Out-of-range indices cannot occur for draws in `[0,1)`; `getD`
supplies an arbitrary default elsewhere. -/
def stepCompute (env : JsMath) (s : SimState) (cfg : Config) (d : Draws) :
    TickData :=
  let txIdx := pickAction s.tx.q (if cfg.freeze then 0 else cfg.eps) d.txR1 d.txR2
  let txAct := TX_ACTIONS.getD txIdx ⟨0, .BPSK, 0⟩
  let jamIdx := if cfg.jamAdaptive then
      pickAction s.jam.q (if cfg.freeze then 0 else s.jam.eps) d.jamR1 d.jamR2
    else (⌊d.jamR2 * (JAM_ACTIONS.length : ℚ)⌋).toNat
  let jamAct := JAM_ACTIONS.getD jamIdx ⟨0, 0, 0⟩
  let txBin := mapFreqSlotToBin txAct.fSlot
  let jamCenter := mapFreqSlotToBin jamAct.fSlot
  let jamSpanBins := min (jamAct.span : ℚ) cfg.jamMaxSpan
  let snrLin := dbToLin env cfg.snrDb
  let bwHz := cfg.bwMHz * 1000000
  let noisePower := cfg.noiseDensity * bwHz
  let txPower := cfg.txMaxPower * txAct.p
  let jamPower := cfg.jamMaxPower * jamAct.p
  let overlapFactor := computeOverlap (txBin : ℚ) (jamCenter : ℚ) jamSpanBins
  let interference := jamPower * overlapFactor
  let signal := txPower * snrLin * modEff txAct.mod
  let sinr := signal / (noisePower + interference + 1)
  let spectralEff := env.log2 (1 + sinr)
  let throughputMbps := (bwHz / 1000000) * spectralEff
  let jammingIntensity := interference / (interference + noisePower + 1)
  let txReward := throughputMbps - 2/100 * txPower - 6 * overlapFactor
  let jamReward := jammingIntensity * jamPower - 8/100 * throughputMbps
  ⟨txIdx, jamIdx, txAct, jamAct, txBin, jamCenter, jamSpanBins, noisePower,
    txPower, jamPower, overlapFactor, interference, signal, sinr, spectralEff,
    throughputMbps, jammingIntensity, txReward, jamReward⟩

/-- The TD update `q[idx] += lr * (reward - q[idx])`
(`src/app.js` lines 180 and 182). -/
def updateQ (q : List ℚ) (idx : ℕ) (lr r : ℚ) : List ℚ :=
  q.set idx (q.getD idx 0 + lr * (r - q.getD idx 0))

/-- `history.push(entry)` followed by
`if (state.history.length > HISTORY_POINTS) state.history.shift()`
(`src/app.js` lines 189-198). -/
def pushBounded (h : List HistEntry) (e : HistEntry) : List HistEntry :=
  let h2 := h ++ [e]
  if HISTORY_POINTS < h2.length then h2.drop 1 else h2

/-- `stepSimulation` from `src/app.js` lines 144-206 (engine part; the
trailing chart/DOM rendering calls are presentation). -/
def stepSimulation (env : JsMath) (s : SimState) (cfg : Config) (d : Draws) :
    SimState :=
  let td := stepCompute env s cfg d
  let txQ := if cfg.freeze then s.tx.q
    else updateQ s.tx.q td.txIdx cfg.lr td.txReward
  let jamQ := if cfg.freeze then s.jam.q
    else if cfg.jamAdaptive then updateQ s.jam.q td.jamIdx s.jam.lr td.jamReward
    else s.jam.q
  let txLast : TxResolved := ⟨td.txAct, td.txBin⟩
  let jamLast : JamResolved := ⟨td.jamAct, td.jamCenter, td.jamSpanBins⟩
  let entry : HistEntry := ⟨s.t, td.throughputMbps, td.jammingIntensity,
    linToDb env td.sinr, td.overlapFactor, txLast, jamLast⟩
  { t := s.t + 1
    freezeLearning := cfg.freeze
    jamAdaptive := cfg.jamAdaptive
    tx := ⟨txQ, cfg.eps, cfg.lr, some txLast⟩
    jam := ⟨jamQ, s.jam.eps, s.jam.lr, some jamLast⟩
    history := pushBounded s.history entry }

/-- An external driver event: one simulation tick (with its settings and
random draws) or a restart click. -/
inductive Event where
  | tick (cfg : Config) (d : Draws)
  | reset

/-- Apply one driver event to the state. -/
def applyEvent (env : JsMath) (s : SimState) : Event → SimState
  | .tick cfg d => stepSimulation env s cfg d
  | .reset => resetSimulation s

/-- Run a sequence of driver events. -/
def run (env : JsMath) (s : SimState) (evs : List Event) : SimState :=
  evs.foldl (applyEvent env) s

/-- Run a sequence of plain ticks. -/
def runTicks (env : JsMath) (s : SimState) (steps : List (Config × Draws)) :
    SimState :=
  steps.foldl (fun s p => stepSimulation env s p.1 p.2) s

/-- A concrete transcendental environment, for evaluating the model at
concrete inputs (the claims hold for every environment). -/
def envUnit : JsMath := ⟨fun _ => 1, fun _ => 1, fun _ => 1⟩

/-- Concrete draws: every `Math.random()` call returns `1/2`. -/
def drawsHalf : Draws := ⟨1/2, 1/2, 1/2, 1/2⟩

/-- A concrete frozen-learning configuration. -/
def cfgFrozen : Config := ⟨20, 5, 1/1000000, 1, 8, 1, 18/100, 8/100, true, true⟩

/-- A concrete configuration with exploration rate `1`, learning on,
adaptive jammer. -/
def cfgExplore : Config := ⟨20, 5, 1/1000000, 1, 8, 1, 18/100, 1, false, true⟩

/-- A concrete configuration with a non-adaptive jammer. -/
def cfgNoAdapt : Config := ⟨20, 5, 1/1000000, 1, 8, 1, 18/100, 8/100, false, false⟩

/-- A concrete all-degenerate configuration with `txMaxPower = 0`. -/
def cfgZeroTx : Config := ⟨0, 0, 0, 0, 8, 0, 18/100, 0, false, true⟩

/-- A concrete configuration with a silent jammer (`jamMaxPower = 0`) and
exploration rate `0`. -/
def cfgQuiet : Config := ⟨20, 5, 1/1000000, 0, 8, 1, 18/100, 0, false, true⟩

/-! ## Helper lemmas -/

lemma getD_replicate_zero (r i : ℕ) : (List.replicate r (0 : ℚ)).getD i 0 = 0 := by
  rcases Nat.lt_or_ge i r with h | h
  · rw [List.getD_eq_getElem _ _ (by simpa using h)]
    simp
  · exact List.getD_eq_default _ _ (by simpa using h)

lemma argMax_replicate_zero (n : ℕ) : argMax (List.replicate n 0) = 0 := by
  have h : ∀ l : List ℕ,
      List.foldl (fun best i =>
        if (List.replicate n (0 : ℚ)).getD i 0 > (List.replicate n (0 : ℚ)).getD best 0
        then i else best) 0 l = 0 := by
    intro l
    induction l with
    | nil => rfl
    | cons a l ih =>
      have hc : ¬ ((List.replicate n (0 : ℚ)).getD a 0 >
          (List.replicate n (0 : ℚ)).getD 0 0) := by
        simp [getD_replicate_zero]
      rw [List.foldl_cons, if_neg hc]
      exact ih
  unfold argMax
  exact h _

set_option maxRecDepth 10000 in
lemma TX_ACTIONS_length : TX_ACTIONS.length = 108 := by decide

set_option maxRecDepth 10000 in
lemma JAM_ACTIONS_length : JAM_ACTIONS.length = 144 := by decide

lemma modEff_pos (m : Modulation) : 0 < modEff m := by
  cases m <;> norm_num [modEff]

set_option maxRecDepth 10000 in
/-- Neither a tick nor a reset ever writes the jammer's `eps` or `lr`
fields. -/
lemma applyEvent_jam_rates (env : JsMath) (s : SimState) (e : Event) :
    (applyEvent env s e).jam.eps = s.jam.eps ∧
    (applyEvent env s e).jam.lr = s.jam.lr := by
  cases e <;> exact ⟨rfl, rfl⟩

/-- Along any run, the jammer's `eps` and `lr` keep their initial values. -/
lemma run_jam_rates (env : JsMath) (s : SimState) (evs : List Event) :
    (run env s evs).jam.eps = s.jam.eps ∧ (run env s evs).jam.lr = s.jam.lr := by
  induction evs generalizing s with
  | nil => exact ⟨rfl, rfl⟩
  | cons e evs ih =>
    have h1 := applyEvent_jam_rates env s e
    have h2 := ih (applyEvent env s e)
    exact ⟨h2.1.trans h1.1, h2.2.trans h1.2⟩

/-! ## Claims -/

/-- C7: `mapFreqSlotToBin` returns the clamped midpoint bin of the slot's
segment under floor division of `BINS` by `TX_FREQ_SLOTS`; slot 0 resolves
to bin 2 and slot 5 to bin 22. -/
theorem C7_resolveFrequency_midpoint :
    (∀ slot, mapFreqSlotToBin slot = midpointBinSpec slot) ∧
    mapFreqSlotToBin 0 = 2 ∧ mapFreqSlotToBin 5 = 22 := by
  refine ⟨fun slot => ?_, by decide, by decide⟩
  simp [mapFreqSlotToBin, midpointBinSpec]

/-- C2: on every tick the transmitter's reward is
`throughputMbps - 0.02 · txPower - 6 · overlapFactor` and the jammer's is
`jammingIntensity · jamPower - 0.08 · throughputMbps`, where the powers are
the resolved `txMaxPower · p` and `jamMaxPower · p`. -/
theorem C2_rewards (env : JsMath) (s : SimState) (cfg : Config) (d : Draws) :
    (stepCompute env s cfg d).txPower =
      cfg.txMaxPower * (stepCompute env s cfg d).txAct.p ∧
    (stepCompute env s cfg d).jamPower =
      cfg.jamMaxPower * (stepCompute env s cfg d).jamAct.p ∧
    (stepCompute env s cfg d).txReward =
      (stepCompute env s cfg d).throughputMbps -
        2/100 * (stepCompute env s cfg d).txPower -
        6 * (stepCompute env s cfg d).overlapFactor ∧
    (stepCompute env s cfg d).jamReward =
      (stepCompute env s cfg d).jammingIntensity *
        (stepCompute env s cfg d).jamPower -
        8/100 * (stepCompute env s cfg d).throughputMbps :=
  ⟨rfl, rfl, rfl, rfl⟩

/-- C1 (amended): for bins in `[0, BINS)` and any span, `computeOverlap`
lies in `[0, 1]` — in fact it is always strictly below 1; at
`txBin = jamCenter` (with a non-negative span) its value is
`half / (half + 1)` for `half = ⌊span / 2⌋`, not 1; and it vanishes
whenever `|txBin - jamCenter| > ⌊span / 2⌋`. -/
theorem C1_overlap_bounds (t c : ℤ) (span : ℚ)
    (ht0 : 0 ≤ t) (ht : t < (BINS : ℤ)) (hc0 : 0 ≤ c) (hc : c < (BINS : ℤ)) :
    0 ≤ computeOverlap (t : ℚ) (c : ℚ) span ∧
    computeOverlap (t : ℚ) (c : ℚ) span < 1 ∧
    (0 ≤ span → t = c →
      computeOverlap (t : ℚ) (c : ℚ) span =
        (⌊span / 2⌋ : ℚ) / ((⌊span / 2⌋ : ℚ) + 1)) ∧
    (⌊span / 2⌋ < |t - c| → computeOverlap (t : ℚ) (c : ℚ) span = 0) := by
  have hB : ((BINS : ℚ) - 1) = 47 := by norm_num [BINS]
  refine ⟨?_, ?_, ?_, ?_⟩
  · simp only [computeOverlap]
    split_ifs with h
    · exact le_rfl
    · exact le_max_left 0 _
  · simp only [computeOverlap]
    split_ifs with h
    · norm_num
    · push_neg at h
      obtain ⟨h1, h2⟩ := h
      have hch : ((c : ℚ) - (⌊span / 2⌋ : ℚ)) ≤ (t : ℚ) :=
        le_trans (le_max_right 0 _) h1
      have hth : (t : ℚ) ≤ (c : ℚ) + (⌊span / 2⌋ : ℚ) :=
        le_trans h2 (min_le_right _ _)
      have hhalf : (0 : ℚ) ≤ (⌊span / 2⌋ : ℚ) := by linarith
      rw [max_lt_iff]
      refine ⟨by norm_num, ?_⟩
      have hd : 0 < |(t : ℚ) - (c : ℚ)| + 1 :=
        lt_of_lt_of_le one_pos (by simp [abs_nonneg])
      have hden : 0 < (⌊span / 2⌋ : ℚ) + 1 := by linarith
      have := div_pos hd hden
      linarith
  · intro hspan heq
    subst heq
    have hhalfZ : 0 ≤ ⌊span / 2⌋ :=
      Int.floor_nonneg.2 (by positivity)
    have hhalf : (0 : ℚ) ≤ (⌊span / 2⌋ : ℚ) := by exact_mod_cast hhalfZ
    have ht47 : (t : ℚ) ≤ 47 := by
      have : t ≤ 47 := by
        have : (BINS : ℤ) = 48 := by norm_num [BINS]
        omega
      exact_mod_cast this
    have htQ : (0 : ℚ) ≤ (t : ℚ) := by exact_mod_cast ht0
    simp only [computeOverlap]
    rw [if_neg]
    · have habs : |(t : ℚ) - (t : ℚ)| = 0 := by simp
      rw [habs]
      have hden : (0 : ℚ) < (⌊span / 2⌋ : ℚ) + 1 := by linarith
      have hval : (1 : ℚ) - (0 + 1) / ((⌊span / 2⌋ : ℚ) + 1) =
          (⌊span / 2⌋ : ℚ) / ((⌊span / 2⌋ : ℚ) + 1) := by
        field_simp
      rw [hval]
      exact max_eq_right (div_nonneg hhalf (le_of_lt hden))
    · push_neg
      constructor
      · exact max_le htQ (by linarith)
      · rw [hB]
        exact le_min ht47 (by linarith)
  · intro habs
    have hcast : ∀ z : ℤ, ((z : ℚ)) = (z : ℚ) := fun _ => rfl
    simp only [computeOverlap]
    rcases le_or_lt c t with hct | hct
    · have habs2 : |t - c| = t - c := abs_of_nonneg (by omega)
      rw [habs2] at habs
      have : (c : ℚ) + (⌊span / 2⌋ : ℚ) < (t : ℚ) := by
        have : c + ⌊span / 2⌋ < t := by omega
        exact_mod_cast this
      rw [if_pos]
      right
      exact lt_of_le_of_lt (min_le_right _ _) this
    · have habs2 : |t - c| = c - t := by
        rw [abs_of_neg (by omega)]
        ring
      rw [habs2] at habs
      have : (t : ℚ) < (c : ℚ) - (⌊span / 2⌋ : ℚ) := by
        have : t < c - ⌊span / 2⌋ := by omega
        exact_mod_cast this
      rw [if_pos]
      left
      exact lt_of_lt_of_le this (le_max_right 0 _)

/-- Witness for C1 at `txBin = jamCenter = 2`, `span = 8`. -/
theorem C1_overlap_bounds_witness :
    (0 : ℤ) ≤ 2 ∧ (2 : ℤ) < (BINS : ℤ) ∧
    (0 ≤ computeOverlap ((2 : ℤ) : ℚ) ((2 : ℤ) : ℚ) 8 ∧
      computeOverlap ((2 : ℤ) : ℚ) ((2 : ℤ) : ℚ) 8 < 1 ∧
      ((0 : ℚ) ≤ 8 → (2 : ℤ) = 2 →
        computeOverlap ((2 : ℤ) : ℚ) ((2 : ℤ) : ℚ) 8 =
          (⌊(8 : ℚ) / 2⌋ : ℚ) / ((⌊(8 : ℚ) / 2⌋ : ℚ) + 1)) ∧
      (⌊(8 : ℚ) / 2⌋ < |(2 : ℤ) - 2| →
        computeOverlap ((2 : ℤ) : ℚ) ((2 : ℤ) : ℚ) 8 = 0)) :=
  ⟨by norm_num, by norm_num [BINS],
    C1_overlap_bounds 2 2 8 (by norm_num) (by norm_num [BINS])
      (by norm_num) (by norm_num [BINS])⟩

/-- Counterexample to C1 as stated: at `txBin = jamCenter = 2` (both valid
bins) with span 8, the overlap is `4/5`, not 1, so "equals 1 iff
`txBin == jamCenter`" fails on the code. -/
theorem C1_counterexample :
    computeOverlap 2 2 8 = 4/5 ∧ computeOverlap 2 2 8 ≠ 1 := by
  constructor
  · norm_num [computeOverlap, BINS]
  · norm_num [computeOverlap, BINS]

set_option maxRecDepth 10000 in
/-- A tick's new history is `pushBounded` of the old one with an entry
carrying the pre-increment tick counter. -/
lemma step_history (env : JsMath) (s : SimState) (cfg : Config) (d : Draws) :
    ∃ e : HistEntry, e.t = s.t ∧
      (stepSimulation env s cfg d).history = pushBounded s.history e :=
  ⟨_, rfl, rfl⟩

set_option maxRecDepth 10000 in
/-- A tick increments the tick counter. -/
lemma step_t (env : JsMath) (s : SimState) (cfg : Config) (d : Draws) :
    (stepSimulation env s cfg d).t = s.t + 1 := rfl

set_option maxRecDepth 10000 in
/-- The FIFO window invariant is preserved by one `pushBounded`. -/
lemma pushBounded_map_t (h : List HistEntry) (e : HistEntry) (n : ℕ)
    (hm : h.map (fun x => x.t) =
      List.range' (n - HISTORY_POINTS) (min n HISTORY_POINTS))
    (he : e.t = n) :
    (pushBounded h e).map (fun x => x.t) =
      List.range' (n + 1 - HISTORY_POINTS) (min (n + 1) HISTORY_POINTS) := by
  have hlen : h.length = min n HISTORY_POINTS := by
    simpa using congrArg List.length hm
  have hmap2 : (h ++ [e]).map (fun x => x.t) =
      List.range' (n - HISTORY_POINTS) (min n HISTORY_POINTS) ++ [n] := by
    rw [List.map_append, hm]
    simp [he]
  unfold pushBounded
  by_cases hcase : HISTORY_POINTS < (h ++ [e]).length
  · rw [if_pos hcase]
    have hn : HISTORY_POINTS ≤ n := by
      rw [List.length_append, hlen] at hcase
      simp at hcase
      omega
    have hmin : min n HISTORY_POINTS = HISTORY_POINTS := by omega
    have hconcat : List.range' (n - HISTORY_POINTS) (min n HISTORY_POINTS) ++ [n] =
        List.range' (n - HISTORY_POINTS) (HISTORY_POINTS + 1) := by
      rw [hmin, List.range'_concat]
      congr 2
      omega
    rw [List.map_drop, hmap2, hconcat, List.range'_succ]
    rw [List.drop_one, List.tail_cons]
    congr 1
    · omega
    · omega
  · rw [if_neg hcase]
    have hn : n < HISTORY_POINTS := by
      rw [List.length_append, hlen] at hcase
      simp at hcase
      omega
    have hmin : min n HISTORY_POINTS = n := by omega
    have hz : n - HISTORY_POINTS = 0 := by omega
    rw [hmap2, hmin, hz]
    have : n + 1 - HISTORY_POINTS = 0 := by omega
    rw [this]
    have : min (n + 1) HISTORY_POINTS = n + 1 := by omega
    rw [this, List.range'_concat]
    congr 2
    omega

/-- The FIFO window invariant is preserved along a run of ticks. -/
lemma runTicks_hist_inv (env : JsMath) (steps : List (Config × Draws))
    (s : SimState)
    (h : s.history.map (fun e => e.t) =
      List.range' (s.t - HISTORY_POINTS) (min s.t HISTORY_POINTS)) :
    (runTicks env s steps).history.map (fun e => e.t) =
      List.range' (s.t + steps.length - HISTORY_POINTS)
        (min (s.t + steps.length) HISTORY_POINTS) ∧
    (runTicks env s steps).t = s.t + steps.length := by
  induction steps generalizing s with
  | nil => exact ⟨by simpa using h, by simp [runTicks]⟩
  | cons p steps ih =>
    obtain ⟨e, he, hhist⟩ := step_history env s p.1 p.2
    have hstep : (stepSimulation env s p.1 p.2).history.map (fun x => x.t) =
        List.range' ((stepSimulation env s p.1 p.2).t - HISTORY_POINTS)
          (min (stepSimulation env s p.1 p.2).t HISTORY_POINTS) := by
      rw [hhist, step_t]
      exact pushBounded_map_t s.history e s.t h he
    have hrest := ih (stepSimulation env s p.1 p.2) hstep
    rw [step_t] at hrest
    refine ⟨?_, ?_⟩
    · have h1 := hrest.1
      have harith : s.t + 1 + steps.length = s.t + (steps.length + 1) := by omega
      rw [harith] at h1
      exact h1
    · have h2 := hrest.2
      have harith : s.t + 1 + steps.length = s.t + (steps.length + 1) := by omega
      rw [harith] at h2
      exact h2

/-- C3: after a reset followed by any run of `n` ticks, the stored tick
values are exactly `n - 180, …, n - 1` (so consecutive ascending, starting
at 0 until capacity is reached), the history length is `min n 180`
(never above `HISTORY_POINTS`), and the tick counter is `n`. -/
theorem C3_history_fifo (env : JsMath) (s : SimState)
    (steps : List (Config × Draws)) :
    (runTicks env (resetSimulation s) steps).history.map (fun e => e.t) =
      List.range' (steps.length - HISTORY_POINTS)
        (min steps.length HISTORY_POINTS) ∧
    (runTicks env (resetSimulation s) steps).history.length =
      min steps.length HISTORY_POINTS ∧
    (runTicks env (resetSimulation s) steps).t = steps.length := by
  have h0 : (resetSimulation s).history.map (fun e => e.t) =
      List.range' ((resetSimulation s).t - HISTORY_POINTS)
        (min (resetSimulation s).t HISTORY_POINTS) := by
    show ([] : List HistEntry).map (fun e => e.t) =
      List.range' (0 - HISTORY_POINTS) (min 0 HISTORY_POINTS)
    simp
  have h := runTicks_hist_inv env steps (resetSimulation s) h0
  have ht0 : (resetSimulation s).t = 0 := rfl
  rw [ht0] at h
  simp only [Nat.zero_add] at h
  refine ⟨h.1, ?_, h.2⟩
  have := congrArg List.length h.1
  simpa using this

set_option maxRecDepth 10000 in
/-- With learning frozen on a tick, neither value table changes. -/
lemma step_frozen_q (env : JsMath) (s : SimState) (cfg : Config) (d : Draws)
    (h : cfg.freeze = true) :
    (stepSimulation env s cfg d).tx.q = s.tx.q ∧
    (stepSimulation env s cfg d).jam.q = s.jam.q := by
  have htx : (stepSimulation env s cfg d).tx.q =
      (if cfg.freeze then s.tx.q
       else updateQ s.tx.q (stepCompute env s cfg d).txIdx cfg.lr
         (stepCompute env s cfg d).txReward) := rfl
  have hjam : (stepSimulation env s cfg d).jam.q =
      (if cfg.freeze then s.jam.q
       else if cfg.jamAdaptive then
         updateQ s.jam.q (stepCompute env s cfg d).jamIdx s.jam.lr
           (stepCompute env s cfg d).jamReward
       else s.jam.q) := rfl
  rw [htx, hjam, h]
  exact ⟨rfl, rfl⟩

/-- C4: if every tick of a run has `learningFrozen = true`, both agents'
value tables are unchanged at the end of the run. -/
theorem C4_frozen_value_tables (env : JsMath) (s : SimState)
    (steps : List (Config × Draws))
    (hAll : ∀ p ∈ steps, (Prod.fst p).freeze = true) :
    (runTicks env s steps).tx.q = s.tx.q ∧
    (runTicks env s steps).jam.q = s.jam.q := by
  induction steps generalizing s with
  | nil => exact ⟨rfl, rfl⟩
  | cons p steps ih =>
    have hp : p.1.freeze = true := hAll p (List.mem_cons_self _ _)
    have hstep := step_frozen_q env s p.1 p.2 hp
    have hrest := ih (stepSimulation env s p.1 p.2)
      (fun q hq => hAll q (List.mem_cons_of_mem _ hq))
    exact ⟨hrest.1.trans hstep.1, hrest.2.trans hstep.2⟩

/-- Witness for C4: one frozen tick from the pristine state. -/
theorem C4_frozen_value_tables_witness :
    (∀ p ∈ [(cfgFrozen, drawsHalf)], (Prod.fst p).freeze = true) ∧
    ((runTicks envUnit initState [(cfgFrozen, drawsHalf)]).tx.q =
        initState.tx.q ∧
      (runTicks envUnit initState [(cfgFrozen, drawsHalf)]).jam.q =
        initState.jam.q) :=
  ⟨by simp [cfgFrozen],
    C4_frozen_value_tables envUnit initState [(cfgFrozen, drawsHalf)]
      (by simp [cfgFrozen])⟩

set_option maxRecDepth 10000 in
/-- C5 (amended): on every tick with an adaptive jammer, the jammer's action
is epsilon-greedy over its table with rate 0 when frozen and otherwise the
jammer's own stored rate — which along any run from startup stays at its
hard-coded initial value `0.12`, not the configuration's `explorationRate`;
the transmitter does use the configuration's rate (0 when frozen). -/
theorem C5_selection_rule (env : JsMath) (evs : List Event) (cfg : Config)
    (d : Draws) (hAdapt : cfg.jamAdaptive = true) :
    (run env initState evs).jam.eps = 12/100 ∧
    (stepCompute env (run env initState evs) cfg d).jamIdx =
      pickAction (run env initState evs).jam.q
        (if cfg.freeze then 0 else 12/100) d.jamR1 d.jamR2 ∧
    (stepCompute env (run env initState evs) cfg d).txIdx =
      pickAction (run env initState evs).tx.q
        (if cfg.freeze then 0 else cfg.eps) d.txR1 d.txR2 := by
  have heps : (run env initState evs).jam.eps = 12/100 :=
    (run_jam_rates env initState evs).1.trans rfl
  refine ⟨heps, ?_, rfl⟩
  have hidx : (stepCompute env (run env initState evs) cfg d).jamIdx =
      (if cfg.jamAdaptive then
        pickAction (run env initState evs).jam.q
          (if cfg.freeze then 0 else (run env initState evs).jam.eps)
          d.jamR1 d.jamR2
      else (⌊d.jamR2 * (JAM_ACTIONS.length : ℚ)⌋).toNat) := rfl
  rw [hidx, hAdapt, if_pos rfl, heps]

/-- Witness for C5 (amended) on the empty run with `cfgExplore`. -/
theorem C5_selection_rule_witness :
    cfgExplore.jamAdaptive = true ∧
    ((run envUnit initState []).jam.eps = 12/100 ∧
      (stepCompute envUnit (run envUnit initState []) cfgExplore drawsHalf).jamIdx =
        pickAction (run envUnit initState []).jam.q
          (if cfgExplore.freeze then 0 else 12/100)
          drawsHalf.jamR1 drawsHalf.jamR2 ∧
      (stepCompute envUnit (run envUnit initState []) cfgExplore drawsHalf).txIdx =
        pickAction (run envUnit initState []).tx.q
          (if cfgExplore.freeze then 0 else cfgExplore.eps)
          drawsHalf.txR1 drawsHalf.txR2) :=
  ⟨rfl, C5_selection_rule envUnit [] cfgExplore drawsHalf rfl⟩

set_option maxRecDepth 10000 in
/-- Counterexample to C5 as stated: just after a reset, with configured
exploration rate 1, learning not frozen, adaptive jammer, and draws of 1/2,
the code picks jammer action 0 (greedy, because `0.5 ≥ 0.12`), while
selection at the configuration's rate would explore and pick index 72. -/
theorem C5_counterexample :
    (stepCompute envUnit (resetSimulation initState) cfgExplore drawsHalf).jamIdx ≠
      pickAction (resetSimulation initState).jam.q
        (if cfgExplore.freeze then 0 else cfgExplore.eps)
        drawsHalf.jamR1 drawsHalf.jamR2 := by
  have h1 : pickAction (List.replicate JAM_ACTIONS.length 0) (12/100)
      (1/2) (1/2) = 0 := by
    unfold pickAction
    rw [if_neg (by norm_num)]
    exact argMax_replicate_zero _
  have h2 : pickAction (List.replicate JAM_ACTIONS.length 0) 1 (1/2) (1/2) = 72 := by
    unfold pickAction
    rw [if_pos (by norm_num)]
    rw [List.length_replicate, JAM_ACTIONS_length]
    norm_num
    decide
  show pickAction (List.replicate JAM_ACTIONS.length 0) (12/100) (1/2) (1/2) ≠
      pickAction (List.replicate JAM_ACTIONS.length 0) 1 (1/2) (1/2)
  rw [h1, h2]
  decide

set_option maxRecDepth 10000 in
/-- C6: with a non-adaptive jammer the jammer's table is untouched
(frozen or not), its index is `⌊r · |JAM_ACTIONS|⌋` for the uniform draw
`r`, and that map sends `[0,1)` onto exactly the whole action space. -/
theorem C6_nonadaptive_jammer (env : JsMath) (s : SimState) (cfg : Config)
    (d : Draws) (h : cfg.jamAdaptive = false) :
    (stepSimulation env s cfg d).jam.q = s.jam.q ∧
    (stepCompute env s cfg d).jamIdx =
      (⌊d.jamR2 * (JAM_ACTIONS.length : ℚ)⌋).toNat ∧
    (∀ r : ℚ, 0 ≤ r → r < 1 →
      (⌊r * (JAM_ACTIONS.length : ℚ)⌋).toNat < JAM_ACTIONS.length) ∧
    (∀ i : ℕ, i < JAM_ACTIONS.length →
      (⌊((i : ℚ) / (JAM_ACTIONS.length : ℚ)) * (JAM_ACTIONS.length : ℚ)⌋).toNat
        = i) := by
  refine ⟨?_, ?_, ?_, ?_⟩
  · have hjam : (stepSimulation env s cfg d).jam.q =
        (if cfg.freeze then s.jam.q
         else if cfg.jamAdaptive then
           updateQ s.jam.q (stepCompute env s cfg d).jamIdx s.jam.lr
             (stepCompute env s cfg d).jamReward
         else s.jam.q) := rfl
    rw [hjam, h]
    cases cfg.freeze <;> simp
  · have hidx : (stepCompute env s cfg d).jamIdx =
        (if cfg.jamAdaptive then
          pickAction s.jam.q (if cfg.freeze then 0 else s.jam.eps)
            d.jamR1 d.jamR2
        else (⌊d.jamR2 * (JAM_ACTIONS.length : ℚ)⌋).toNat) := rfl
    rw [hidx, h]
    simp
  · intro r h0 h1
    rw [JAM_ACTIONS_length]
    have hfl : (0 : ℤ) ≤ ⌊r * ((144 : ℕ) : ℚ)⌋ :=
      Int.floor_nonneg.2 (by positivity)
    rw [Int.toNat_lt hfl, Int.floor_lt]
    push_cast
    nlinarith
  · intro i hi
    rw [JAM_ACTIONS_length] at hi ⊢
    have hne : ((144 : ℕ) : ℚ) ≠ 0 := by norm_num
    rw [div_mul_cancel₀ _ hne, Int.floor_natCast, Int.toNat_natCast]

/-- Witness for C6: a non-adaptive tick from the pristine state. -/
theorem C6_nonadaptive_jammer_witness :
    cfgNoAdapt.jamAdaptive = false ∧
    ((stepSimulation envUnit initState cfgNoAdapt drawsHalf).jam.q =
        initState.jam.q ∧
      (stepCompute envUnit initState cfgNoAdapt drawsHalf).jamIdx =
        (⌊drawsHalf.jamR2 * (JAM_ACTIONS.length : ℚ)⌋).toNat ∧
      (∀ r : ℚ, 0 ≤ r → r < 1 →
        (⌊r * (JAM_ACTIONS.length : ℚ)⌋).toNat < JAM_ACTIONS.length) ∧
      (∀ i : ℕ, i < JAM_ACTIONS.length →
        (⌊((i : ℚ) / (JAM_ACTIONS.length : ℚ)) * (JAM_ACTIONS.length : ℚ)⌋).toNat
          = i)) :=
  ⟨rfl, C6_nonadaptive_jammer envUnit initState cfgNoAdapt drawsHalf rfl⟩

set_option maxRecDepth 10000 in
/-- `noisePower = noiseDensity * bwHz` (`src/app.js` lines 164-165). -/
lemma stepCompute_noisePower (env : JsMath) (s : SimState) (cfg : Config)
    (d : Draws) :
    (stepCompute env s cfg d).noisePower =
      cfg.noiseDensity * (cfg.bwMHz * 1000000) := rfl

set_option maxRecDepth 10000 in
/-- `txPower = cfg.txMaxPower * txAct.p` (`src/app.js` line 166). -/
lemma stepCompute_txPower (env : JsMath) (s : SimState) (cfg : Config)
    (d : Draws) :
    (stepCompute env s cfg d).txPower =
      cfg.txMaxPower * (stepCompute env s cfg d).txAct.p := rfl

set_option maxRecDepth 10000 in
/-- `jamPower = cfg.jamMaxPower * jamAct.p` (`src/app.js` line 167). -/
lemma stepCompute_jamPower (env : JsMath) (s : SimState) (cfg : Config)
    (d : Draws) :
    (stepCompute env s cfg d).jamPower =
      cfg.jamMaxPower * (stepCompute env s cfg d).jamAct.p := rfl

set_option maxRecDepth 10000 in
/-- `interference = jamPower * overlapFactor` (`src/app.js` line 169). -/
lemma stepCompute_interference (env : JsMath) (s : SimState) (cfg : Config)
    (d : Draws) :
    (stepCompute env s cfg d).interference =
      (stepCompute env s cfg d).jamPower *
        (stepCompute env s cfg d).overlapFactor := rfl

set_option maxRecDepth 10000 in
/-- `signal = txPower * snrLin * MOD_EFF[mod]` (`src/app.js` line 170). -/
lemma stepCompute_signal (env : JsMath) (s : SimState) (cfg : Config)
    (d : Draws) :
    (stepCompute env s cfg d).signal =
      (stepCompute env s cfg d).txPower * dbToLin env cfg.snrDb *
        modEff (stepCompute env s cfg d).txAct.mod := rfl

set_option maxRecDepth 10000 in
/-- `sinr = signal / (noisePower + interference + 1)` (`src/app.js`
line 171). -/
lemma stepCompute_sinr (env : JsMath) (s : SimState) (cfg : Config)
    (d : Draws) :
    (stepCompute env s cfg d).sinr =
      (stepCompute env s cfg d).signal /
        ((stepCompute env s cfg d).noisePower +
          (stepCompute env s cfg d).interference + 1) := rfl

/-- C8 (amended): whenever the tick's noise power and interference are
non-negative, the SINR denominator `noise + interference + 1` is strictly
positive (the division is never by zero); the SINR itself is strictly
positive under the additional hypotheses that the resolved transmitter
power and the linear SNR are positive (the bare claim fails when
`txMaxPower = 0`). -/
theorem C8_sinr_positive (env : JsMath) (s : SimState) (cfg : Config)
    (d : Draws)
    (hN : 0 ≤ (stepCompute env s cfg d).noisePower)
    (hI : 0 ≤ (stepCompute env s cfg d).interference) :
    0 < (stepCompute env s cfg d).noisePower +
        (stepCompute env s cfg d).interference + 1 ∧
    (0 < (stepCompute env s cfg d).txPower →
      0 < env.pow10 (cfg.snrDb / 10) →
      0 < (stepCompute env s cfg d).sinr) := by
  have hden : 0 < (stepCompute env s cfg d).noisePower +
      (stepCompute env s cfg d).interference + 1 := by linarith
  refine ⟨hden, fun hP hpow => ?_⟩
  rw [stepCompute_sinr, stepCompute_signal]
  have hlin : 0 < dbToLin env cfg.snrDb := hpow
  exact div_pos (mul_pos (mul_pos hP hlin) (modEff_pos _)) hden

/-- Witness for C8 with a silent jammer and positive noise floor. -/
theorem C8_sinr_positive_witness :
    0 ≤ (stepCompute envUnit initState cfgQuiet drawsHalf).noisePower ∧
    0 ≤ (stepCompute envUnit initState cfgQuiet drawsHalf).interference ∧
    (0 < (stepCompute envUnit initState cfgQuiet drawsHalf).noisePower +
        (stepCompute envUnit initState cfgQuiet drawsHalf).interference + 1 ∧
      (0 < (stepCompute envUnit initState cfgQuiet drawsHalf).txPower →
        0 < envUnit.pow10 (cfgQuiet.snrDb / 10) →
        0 < (stepCompute envUnit initState cfgQuiet drawsHalf).sinr)) :=
  ⟨by rw [stepCompute_noisePower]; norm_num [cfgQuiet],
    by rw [stepCompute_interference, stepCompute_jamPower]; norm_num [cfgQuiet],
    C8_sinr_positive envUnit initState cfgQuiet drawsHalf
      (by rw [stepCompute_noisePower]; norm_num [cfgQuiet])
      (by rw [stepCompute_interference, stepCompute_jamPower]; norm_num [cfgQuiet])⟩

/-- Counterexample to C8 as stated: with `txMaxPower = 0` (and all noise
terms zero, hence noise power and interference both `≥ 0`), the SINR is
exactly 0, not strictly positive. -/
theorem C8_counterexample :
    0 ≤ (stepCompute envUnit initState cfgZeroTx drawsHalf).noisePower ∧
    0 ≤ (stepCompute envUnit initState cfgZeroTx drawsHalf).interference ∧
    ¬ (0 < (stepCompute envUnit initState cfgZeroTx drawsHalf).sinr) := by
  refine ⟨?_, ?_, ?_⟩
  · rw [stepCompute_noisePower]; norm_num [cfgZeroTx]
  · rw [stepCompute_interference, stepCompute_jamPower]; norm_num [cfgZeroTx]
  · rw [stepCompute_sinr, stepCompute_signal, stepCompute_txPower]
    norm_num [cfgZeroTx]

set_option maxRecDepth 10000 in
/-- C9 (code behaviour at the failing input): a tick invoked on the
pristine pre-reset state (both value tables still empty) does not fail
fast: it completes, advances the counter, appends a normal outcome, and
both selections return index 0 (the `argMax` loop over an empty table
leaves `best = 0`). -/
theorem C9_tick_before_reset_completes :
    (stepSimulation envUnit initState cfgFrozen drawsHalf).t = 1 ∧
    ((stepSimulation envUnit initState cfgFrozen drawsHalf).history.map
      (fun e => e.t)) = [0] ∧
    (stepCompute envUnit initState cfgFrozen drawsHalf).txIdx = 0 ∧
    (stepCompute envUnit initState cfgFrozen drawsHalf).jamIdx = 0 := by
  have hpick : pickAction ([] : List ℚ) 0 (1/2) (1/2) = 0 := by
    unfold pickAction
    rw [if_neg (by norm_num)]
    rfl
  have htx : (stepCompute envUnit initState cfgFrozen drawsHalf).txIdx =
      pickAction ([] : List ℚ) 0 (1/2) (1/2) := rfl
  have hjam : (stepCompute envUnit initState cfgFrozen drawsHalf).jamIdx =
      pickAction ([] : List ℚ) 0 (1/2) (1/2) := rfl
  exact ⟨rfl, rfl, htx.trans hpick, hjam.trans hpick⟩

set_option maxRecDepth 10000 in
/-- C10: the configuration's learning rate is applied only to the
transmitter's update; the jammer's stored rate stays at its hard-coded
initial value 0.14 along every run, and the jammer's update (when it
happens) uses that fixed rate. -/
theorem C10_learning_rates (env : JsMath) (evs : List Event) (cfg : Config)
    (d : Draws) (hF : cfg.freeze = false) :
    (run env initState evs).jam.lr = 14/100 ∧
    (stepSimulation env (run env initState evs) cfg d).tx.q =
      updateQ (run env initState evs).tx.q
        (stepCompute env (run env initState evs) cfg d).txIdx cfg.lr
        (stepCompute env (run env initState evs) cfg d).txReward ∧
    (cfg.jamAdaptive = true →
      (stepSimulation env (run env initState evs) cfg d).jam.q =
        updateQ (run env initState evs).jam.q
          (stepCompute env (run env initState evs) cfg d).jamIdx (14/100)
          (stepCompute env (run env initState evs) cfg d).jamReward) := by
  have hlr : (run env initState evs).jam.lr = 14/100 :=
    (run_jam_rates env initState evs).2.trans rfl
  refine ⟨hlr, ?_, fun hA => ?_⟩
  · have h : (stepSimulation env (run env initState evs) cfg d).tx.q =
        (if cfg.freeze then (run env initState evs).tx.q
         else updateQ (run env initState evs).tx.q
           (stepCompute env (run env initState evs) cfg d).txIdx cfg.lr
           (stepCompute env (run env initState evs) cfg d).txReward) := rfl
    rw [h, hF]
    simp
  · have h : (stepSimulation env (run env initState evs) cfg d).jam.q =
        (if cfg.freeze then (run env initState evs).jam.q
         else if cfg.jamAdaptive then
           updateQ (run env initState evs).jam.q
             (stepCompute env (run env initState evs) cfg d).jamIdx
             (run env initState evs).jam.lr
             (stepCompute env (run env initState evs) cfg d).jamReward
         else (run env initState evs).jam.q) := rfl
    rw [h, hF, hA, hlr]
    simp

/-- Witness for C10: one live tick after the empty run. -/
theorem C10_learning_rates_witness :
    cfgExplore.freeze = false ∧
    ((run envUnit initState []).jam.lr = 14/100 ∧
      (stepSimulation envUnit (run envUnit initState []) cfgExplore drawsHalf).tx.q =
        updateQ (run envUnit initState []).tx.q
          (stepCompute envUnit (run envUnit initState []) cfgExplore drawsHalf).txIdx
          cfgExplore.lr
          (stepCompute envUnit (run envUnit initState []) cfgExplore drawsHalf).txReward ∧
      (cfgExplore.jamAdaptive = true →
        (stepSimulation envUnit (run envUnit initState []) cfgExplore drawsHalf).jam.q =
          updateQ (run envUnit initState []).jam.q
            (stepCompute envUnit (run envUnit initState []) cfgExplore drawsHalf).jamIdx
            (14/100)
            (stepCompute envUnit (run envUnit initState []) cfgExplore drawsHalf).jamReward)) :=
  ⟨rfl, C10_learning_rates envUnit [] cfgExplore drawsHalf rfl⟩

end CommSim
